import Mathlib

/-!
Verification development for the todo-list application in `src/app/page.tsx`.

The component keeps a local collection `todos : Todo[]`, reconciles it with a
remote document collection through an `onSnapshot` subscription, exposes the
CRUD intents `addTodo` / `removeTodo` / `toggleDone` / `updateContent`, and
derives a sorted projection `todosAsc`.

Strings are modelled as `List Char` (a JavaScript string is a sequence of
code units), remote calls as an explicit effect list, and the success or
failure of an awaited remote call as an explicit `RemoteOutcome` argument.
-/

namespace TodoApp

/-- `type Category = 'business' | 'personal'` -/
inductive Category where
  | business
  | personal
deriving DecidableEq

/-- The `createdAt` field of the `Todo` interface:
`Timestamp | FieldValue | { seconds; nanoseconds } | null | undefined`.
`fieldValue` is the pending-write sentinel produced by `serverTimestamp()`
(it has no `seconds` property); `timestamp` and `plain` are the two resolved
representations, both exposing `seconds` and `nanoseconds`. -/
inductive CreatedAt where
  | timestamp (seconds : Int) (nanoseconds : Int)
  | fieldValue
  | plain (seconds : Int) (nanoseconds : Int)
  | nullv
  | undef
deriving DecidableEq

/-- `Omit<Todo, 'id'>` — the document payload stored in the remote collection. -/
structure TodoData where
  content : List Char
  category : Category
  done : Bool
  createdAt : CreatedAt
  createdBy : Option String
deriving DecidableEq

/-- The `Todo` interface: a document payload together with its `id`. -/
structure Todo extends TodoData where
  id : String
deriving DecidableEq

/-- The ECMAScript `WhiteSpace` / `LineTerminator` characters removed by
`String.prototype.trim`. -/
def isJsWhitespace (c : Char) : Bool :=
  c.toNat = 0x9 || c.toNat = 0xA || c.toNat = 0xB || c.toNat = 0xC ||
  c.toNat = 0xD || c.toNat = 0x20 || c.toNat = 0xA0 || c.toNat = 0x1680 ||
  (0x2000 ≤ c.toNat && c.toNat ≤ 0x200A) ||
  c.toNat = 0x2028 || c.toNat = 0x2029 || c.toNat = 0x202F ||
  c.toNat = 0x205F || c.toNat = 0x3000 || c.toNat = 0xFEFF

/-- `String.prototype.trim`: drop whitespace from both ends. -/
def jsTrim (s : List Char) : List Char :=
  ((s.dropWhile isJsWhitespace).reverse.dropWhile isJsWhitespace).reverse

/-- The sort key of the comparator in `todosAsc`:
`(x.createdAt as Timestamp)?.seconds || 0`.  Optional chaining on
`null`/`undefined` yields `undefined`, a `FieldValue` has no `seconds`
property, and `undefined || 0` and `0 || 0` are `0`. -/
def sortKey : CreatedAt → Int
  | .timestamp s _ => s
  | .plain s _ => s
  | .fieldValue => 0
  | .nullv => 0
  | .undef => 0

/-- The boolean order induced by the comparator
`(a, b) => timeA - timeB` used in `todosAsc`. -/
def todoLE (a b : Todo) : Bool :=
  sortKey a.createdAt ≤ sortKey b.createdAt

/-- `todosAsc`: `[...todos].sort((a, b) => timeA - timeB)`.
`Array.prototype.sort` is a stable sort, and a stable sort consistent with
the comparator is exactly `List.mergeSort` with the induced boolean order. -/
def todosAsc (todos : List Todo) : List Todo :=
  todos.mergeSort todoLE

/-- The component state relevant to the claims: the state hooks of `AppPage`. -/
structure AppState where
  name : String
  todos : List Todo
  inputContent : List Char
  inputCategory : Category
  userId : Option String
  syncStatus : String
deriving DecidableEq

/-- Result of an awaited remote call (`await setDoc` / `await deleteDoc`):
either it resolves or it throws into the surrounding `catch`. -/
inductive RemoteOutcome where
  | success
  | failure
deriving DecidableEq

/-- A remote call issued against the document collection. -/
inductive RemoteOp where
  | createDoc (data : TodoData)
  | deleteDoc (id : String)
  | mergeSetDone (id : String) (done : Bool)
  | mergeSetContent (id : String) (content : List Char)
deriving DecidableEq

/-- `addTodo`: validates `inputContent.trim()` (and that `firestoreDb` is
configured; `inputCategory` is a nonempty string literal, hence always
truthy), then issues one `setDoc` with the new document payload.  On success
it clears the input buffer; on failure it only sets the status string. -/
def addTodo (dbOk : Bool) (st : AppState) (outcome : RemoteOutcome) :
    AppState × List RemoteOp :=
  if jsTrim st.inputContent = [] || !dbOk then (st, [])
  else
    let payload : TodoData :=
      { content := jsTrim st.inputContent
        category := st.inputCategory
        done := false
        createdAt := .fieldValue
        createdBy := st.userId }
    match outcome with
    | .success => ({ st with inputContent := [] }, [.createDoc payload])
    | .failure =>
        ({ st with syncStatus := "Failed to add todo. Check console." },
         [.createDoc payload])

/-- `removeTodo`: issues one `deleteDoc`; on failure only the status string
changes. -/
def removeTodo (dbOk : Bool) (st : AppState) (todoId : String)
    (outcome : RemoteOutcome) : AppState × List RemoteOp :=
  if !dbOk then (st, [])
  else
    match outcome with
    | .success => (st, [.deleteDoc todoId])
    | .failure =>
        ({ st with syncStatus := "Failed to delete todo. Check console." },
         [.deleteDoc todoId])

/-- `toggleDone`: issues one merge `setDoc` flipping only `done`; on failure
only the status string changes. -/
def toggleDone (dbOk : Bool) (st : AppState) (todo : Todo)
    (outcome : RemoteOutcome) : AppState × List RemoteOp :=
  if !dbOk then (st, [])
  else
    match outcome with
    | .success => (st, [.mergeSetDone todo.id (!todo.done)])
    | .failure =>
        ({ st with syncStatus := "Failed to update todo status. Check console." },
         [.mergeSetDone todo.id (!todo.done)])

/-- `updateContent`: no-op when `newContent.trim()` is empty, otherwise one
merge `setDoc` of `content` only; on failure only the status string
changes. -/
def updateContent (dbOk : Bool) (st : AppState) (todoId : String)
    (newContent : List Char) (outcome : RemoteOutcome) :
    AppState × List RemoteOp :=
  if !dbOk || jsTrim newContent = [] then (st, [])
  else
    match outcome with
    | .success => (st, [.mergeSetContent todoId (jsTrim newContent)])
    | .failure =>
        ({ st with syncStatus := "Failed to update todo content. Check console." },
         [.mergeSetContent todoId (jsTrim newContent)])

/-- A document of a snapshot: `doc.id` together with `doc.data()`. -/
structure DocSnap where
  id : String
  data : TodoData
deriving DecidableEq

/-- `{ id: doc.id, ...doc.data() }` -/
def snapshotTodo (d : DocSnap) : Todo :=
  { toTodoData := d.data, id := d.id }

/-- The `onSnapshot` success callback: maps the snapshot's documents and
fully replaces `todos` via `setTodos(todosData)`; `timeString` stands for
`new Date().toLocaleTimeString()`. -/
def onSnapshotCallback (st : AppState) (docs : List DocSnap)
    (timeString : String) : AppState :=
  { st with
    todos := docs.map snapshotTodo
    syncStatus := "Synced (" ++ timeString ++ ")" }

/-- The `onSnapshot` error callback: only the status string changes. -/
def onSnapshotError (st : AppState) : AppState :=
  { st with syncStatus := "Sync Error. Check console." }

/-- The `useMemo` computing the derived view: `[...todos].sort(...)` sorts a
copy of the array, so the computation returns the sorted projection and
leaves the state untouched. -/
def computeOrderedView (st : AppState) : List Todo × AppState :=
  (todosAsc st.todos, st)

/-! ### Lemmas about `jsTrim` -/

lemma dropWhile_dropWhile_self {α : Type} (p : α → Bool) (l : List α) :
    (l.dropWhile p).dropWhile p = l.dropWhile p := by
  induction l with
  | nil => rfl
  | cons a t ih =>
    by_cases h : p a
    · simp [List.dropWhile_cons, h, ih]
    · simp [List.dropWhile_cons, h]

lemma head?_dropWhile_false {α : Type} (p : α → Bool) (l : List α) (a : α)
    (h : (l.dropWhile p).head? = some a) : p a = false := by
  have hm := List.head?_dropWhile_not p l
  rw [h] at hm
  exact hm

lemma dropWhile_eq_self_of_head {α : Type} (p : α → Bool) (l : List α)
    (h : ∀ a, l.head? = some a → p a = false) : l.dropWhile p = l := by
  cases l with
  | nil => rfl
  | cons a t => simp [List.dropWhile_cons, h a rfl]

/-- A string that is empty or whitespace-only trims to the empty string. -/
lemma jsTrim_of_all_whitespace {s : List Char}
    (h : s.all isJsWhitespace = true) : jsTrim s = [] := by
  have h1 : s.dropWhile isJsWhitespace = [] := by
    rw [List.dropWhile_eq_nil_iff]
    intro x hx
    exact List.all_eq_true.mp h x hx
  simp [jsTrim, h1]

/-- `jsTrim` is idempotent: a trimmed string is its own trim. -/
lemma jsTrim_idem (s : List Char) : jsTrim (jsTrim s) = jsTrim s := by
  unfold jsTrim
  have h1 : (((s.dropWhile isJsWhitespace).reverse.dropWhile
      isJsWhitespace).reverse).dropWhile isJsWhitespace =
      ((s.dropWhile isJsWhitespace).reverse.dropWhile isJsWhitespace).reverse := by
    apply dropWhile_eq_self_of_head
    intro a ha
    rw [List.head?_reverse] at ha
    obtain ⟨t, ht⟩ :=
      List.dropWhile_suffix (l := (s.dropWhile isJsWhitespace).reverse) isJsWhitespace
    have hlast : ((s.dropWhile isJsWhitespace).reverse).getLast? = some a := by
      rw [← ht, List.getLast?_append, ha]
      rfl
    rw [← List.head?_reverse, List.reverse_reverse] at hlast
    exact head?_dropWhile_false isJsWhitespace s a hlast
  rw [h1, List.reverse_reverse, dropWhile_dropWhile_self]

/-- A nonempty trimmed string is not whitespace-only. -/
lemma jsTrim_not_all_whitespace {s : List Char} (h : jsTrim s ≠ []) :
    (jsTrim s).all isJsWhitespace = false := by
  by_contra hc
  have hall : (jsTrim s).all isJsWhitespace = true := by
    cases hb : (jsTrim s).all isJsWhitespace with
    | true => rfl
    | false => exact absurd hb hc
  have := jsTrim_of_all_whitespace hall
  rw [jsTrim_idem] at this
  exact h this

/-! ### Spec-side ordering definitions -/

/-- Modelled from the spec: the ordering key of `orderedView` — the resolved
creation-marker seconds, or `0` when the marker is unresolved or absent. -/
def specMarkerKey : CreatedAt → Int
  | .timestamp s _ => s
  | .plain s _ => s
  | .fieldValue => 0
  | .nullv => 0
  | .undef => 0

/-- Modelled from the spec: the boolean order induced by `specMarkerKey`. -/
def specLE (a b : Todo) : Bool :=
  specMarkerKey a.createdAt ≤ specMarkerKey b.createdAt

/-- Modelled from the spec: the stable ascending sort by `specMarkerKey`. -/
def specStableSort (todos : List Todo) : List Todo :=
  todos.mergeSort specLE

/-- `true` iff the marker is in a resolved representation. -/
def isResolved : CreatedAt → Bool
  | .timestamp _ _ => true
  | .plain _ _ => true
  | _ => false

/-- The full value of a resolved marker — seconds and sub-second component
combined — expressed in nanoseconds. -/
def markerValue : CreatedAt → Option Int
  | .timestamp s n => some (s * 1000000000 + n)
  | .plain s n => some (s * 1000000000 + n)
  | _ => none

/-- The seconds component of a resolved marker. -/
def markerSeconds : CreatedAt → Option Int
  | .timestamp s _ => some s
  | .plain s _ => some s
  | _ => none

/-- The full marker values of the resolved items, in list order. -/
def resolvedMarkerValues (l : List Todo) : List Int :=
  l.filterMap (fun t => markerValue t.createdAt)

/-- The marker seconds of the resolved items, in list order. -/
def resolvedMarkerSeconds (l : List Todo) : List Int :=
  l.filterMap (fun t => markerSeconds t.createdAt)

/-! ### Lemmas about the comparator and `todosAsc` -/

lemma specMarkerKey_eq_sortKey (c : CreatedAt) : specMarkerKey c = sortKey c := by
  cases c <;> rfl

lemma specLE_eq_todoLE : specLE = todoLE := by
  funext a b
  simp [specLE, todoLE, specMarkerKey_eq_sortKey]

lemma todoLE_trans : ∀ (a b c : Todo), todoLE a b → todoLE b c → todoLE a c := by
  intro a b c h1 h2
  simp only [todoLE, decide_eq_true_eq] at *
  omega

lemma todoLE_total : ∀ (a b : Todo), todoLE a b || todoLE b a := by
  intro a b
  simp only [todoLE, Bool.or_eq_true, decide_eq_true_eq]
  omega

lemma todosAsc_perm (l : List Todo) : List.Perm (todosAsc l) l :=
  List.mergeSort_perm l todoLE

lemma todosAsc_pairwise (l : List Todo) :
    (todosAsc l).Pairwise (fun a b => todoLE a b = true) :=
  List.sorted_mergeSort todoLE_trans todoLE_total l

/-- Stability of `todosAsc`: the items sharing any one sort key keep the
order of the input list. -/
lemma todosAsc_filter_key (l : List Todo) (k : Int) :
    (todosAsc l).filter (fun t => specMarkerKey t.createdAt == k) =
      l.filter (fun t => specMarkerKey t.createdAt == k) := by
  set p : Todo → Bool := fun t => specMarkerKey t.createdAt == k with hp
  have hsub : List.Sublist (l.filter p) l := List.filter_sublist l
  have hpw : (l.filter p).Pairwise (fun a b => todoLE a b = true) := by
    apply List.pairwise_of_forall_mem_list
    intro a ha b hb
    have ha' := (List.mem_filter.mp ha).2
    have hb' := (List.mem_filter.mp hb).2
    simp only [hp, beq_iff_eq] at ha' hb'
    simp only [todoLE, decide_eq_true_eq, ← specMarkerKey_eq_sortKey, ha', hb']
    exact le_refl k
  have h1 : List.Sublist (l.filter p) (todosAsc l) :=
    List.sublist_mergeSort todoLE_trans todoLE_total hpw hsub
  have h2 : List.Sublist (l.filter p) ((todosAsc l).filter p) := by
    have h3 := h1.filter p
    simpa [List.filter_filter] using h3
  have h4 : ((todosAsc l).filter p).length = (l.filter p).length :=
    ((todosAsc_perm l).filter p).length_eq
  exact (h2.eq_of_length h4.symm).symm

/-- Evaluation of `mergeSort` on a two-element list. -/
lemma mergeSort_pair {α : Type} (le : α → α → Bool) (a b : α) :
    List.mergeSort [a, b] le = if le a b then [a, b] else [b, a] := by
  rw [List.mergeSort]
  simp [List.splitInTwo, List.splitAt, List.splitAt.go, List.merge]

lemma sortKey_of_markerSeconds {c : CreatedAt} {x : Int}
    (h : markerSeconds c = some x) : sortKey c = x := by
  cases c <;> simp_all [markerSeconds, sortKey]

/-! ### Concrete items used as counterexample inputs -/

/-- Resolved marker: seconds `1`, sub-second component `500`. -/
def todoSubA : Todo :=
  { id := "a", content := ['x'], category := .personal, done := false,
    createdAt := .timestamp 1 500, createdBy := none }

/-- Resolved marker: seconds `1`, sub-second component `100`. -/
def todoSubB : Todo :=
  { id := "b", content := ['y'], category := .personal, done := false,
    createdAt := .timestamp 1 100, createdBy := none }

/-- Resolved marker at the epoch: seconds `0`. -/
def todoEpoch : Todo :=
  { id := "a", content := ['x'], category := .personal, done := false,
    createdAt := .timestamp 0 0, createdBy := none }

/-- Absent marker (item not yet synced). -/
def todoUnsynced : Todo :=
  { id := "b", content := ['y'], category := .personal, done := false,
    createdAt := .undef, createdBy := none }

/-! ### Claim theorems about the derived ordering -/

/-- C1: for every local collection, `todosAsc` equals the stable sort of the
collection ascending by the key "resolved creation-marker seconds, or 0 when
the marker is unresolved or absent": it agrees with the sort modelled from
the spec's words, is a permutation of the collection, is ascending in the
spec key, and items with equal keys keep the order the last snapshot
delivered. -/
theorem orderedView_is_stable_sort_by_spec_key (l : List Todo) :
    todosAsc l = specStableSort l ∧
    List.Perm (todosAsc l) l ∧
    (todosAsc l).Pairwise
      (fun a b => specMarkerKey a.createdAt ≤ specMarkerKey b.createdAt) ∧
    ∀ k : Int, (todosAsc l).filter (fun t => specMarkerKey t.createdAt == k) =
      l.filter (fun t => specMarkerKey t.createdAt == k) := by
  refine ⟨by simp [todosAsc, specStableSort, specLE_eq_todoLE],
    todosAsc_perm l, ?_, todosAsc_filter_key l⟩
  exact (todosAsc_pairwise l).imp
    (fun hab => by
      simpa [todoLE, specMarkerKey_eq_sortKey] using hab)

/-- C2 counterexample: the collection `[todoSubA, todoSubB]` has two resolved
markers with equal seconds and decreasing sub-second components; `todosAsc`
keeps their order, so the full marker values (sub-second component included)
decrease. -/
theorem orderedView_subsecond_can_decrease :
    isResolved todoSubA.createdAt = true ∧
    isResolved todoSubB.createdAt = true ∧
    ¬ (resolvedMarkerValues (todosAsc [todoSubA, todoSubB])).Pairwise (· ≤ ·) := by
  refine ⟨rfl, rfl, ?_⟩
  have he : todosAsc [todoSubA, todoSubB] = [todoSubA, todoSubB] := by
    rw [todosAsc, mergeSort_pair]
    simp [todoLE, sortKey, todoSubA, todoSubB]
  rw [he]
  intro hpw
  have hlist : resolvedMarkerValues [todoSubA, todoSubB] =
      [1000000500, 1000000100] := by decide
  rw [hlist] at hpw
  have h1 := (List.pairwise_cons.mp hpw).1 1000000100 (by simp)
  omega

/-- C2 as amended: along `todosAsc`, the resolved markers have non-decreasing
seconds components (the comparator ignores the sub-second component). -/
theorem orderedView_resolved_seconds_nondecreasing (l : List Todo) :
    (resolvedMarkerSeconds (todosAsc l)).Pairwise (· ≤ ·) := by
  rw [resolvedMarkerSeconds, List.pairwise_filterMap]
  apply (todosAsc_pairwise l).imp
  intro a b hab x hx y hy
  simp only [Option.mem_def] at hx hy
  rw [← sortKey_of_markerSeconds hx, ← sortKey_of_markerSeconds hy]
  simpa [todoLE, decide_eq_true_eq] using hab

/-- C3 counterexample: in the collection `[todoEpoch, todoUnsynced]` the
resolved epoch marker ties with the absent marker at key `0`, so the stable
sort keeps the resolved item first and an unresolved item appears after a
resolved one. -/
theorem orderedView_resolved_epoch_before_unresolved :
    isResolved todoEpoch.createdAt = true ∧
    isResolved todoUnsynced.createdAt = false ∧
    ¬ (todosAsc [todoEpoch, todoUnsynced]).Pairwise
      (fun x y => isResolved x.createdAt = true → isResolved y.createdAt = true) := by
  refine ⟨rfl, rfl, ?_⟩
  have he : todosAsc [todoEpoch, todoUnsynced] = [todoEpoch, todoUnsynced] := by
    rw [todosAsc, mergeSort_pair]
    simp [todoLE, sortKey, todoEpoch, todoUnsynced]
  rw [he]
  intro hpw
  have h1 := (List.pairwise_cons.mp hpw).1 todoUnsynced (by simp)
  simp [isResolved, todoEpoch, todoUnsynced] at h1

/-- C3 as amended: every item with an unresolved or absent marker appears in
`todosAsc` before every item whose resolved marker has a positive seconds
component. -/
theorem orderedView_unresolved_before_positive_resolved (l : List Todo) :
    (todosAsc l).Pairwise (fun x y =>
      isResolved x.createdAt = true → 0 < sortKey x.createdAt →
        isResolved y.createdAt = true) := by
  apply (todosAsc_pairwise l).imp
  intro a b hab _ h2
  simp only [todoLE, decide_eq_true_eq] at hab
  by_contra hb
  have hb0 : sortKey b.createdAt = 0 := by
    cases hcb : b.createdAt <;> simp_all [isResolved, sortKey]
  omega

/-- C10: computing the ordered view leaves the component state unchanged
(the sort runs on a copy of the array), and the returned sequence is a
permutation of the local collection — the same items with the same
multiplicities, none added, dropped, or modified. -/
theorem orderedView_pure_permutation (st : AppState) :
    (computeOrderedView st).2 = st ∧
    List.Perm (computeOrderedView st).1 st.todos ∧
    ∀ t : Todo, (computeOrderedView st).1.count t = st.todos.count t := by
  refine ⟨rfl, todosAsc_perm st.todos, ?_⟩
  intro t
  exact (todosAsc_perm st.todos).count_eq t

/-! ### Characterisation of the remote calls issued by the CRUD intents -/

/-- The content field written by a remote call, when it writes one. -/
def writeContent? : RemoteOp → Option (List Char)
  | .createDoc d => some d.content
  | .mergeSetContent _ c => some c
  | _ => none

lemma addTodo_ops (dbOk : Bool) (st : AppState) (o : RemoteOutcome) :
    (addTodo dbOk st o).2 = [] ∨
    (jsTrim st.inputContent ≠ [] ∧ (addTodo dbOk st o).2 =
      [.createDoc
        { content := jsTrim st.inputContent, category := st.inputCategory,
          done := false, createdAt := .fieldValue, createdBy := st.userId }]) := by
  rw [addTodo]
  by_cases h1 : jsTrim st.inputContent = []
  · left
    simp [h1]
  · by_cases h2 : dbOk
    · right
      refine ⟨h1, ?_⟩
      cases o <;> simp [h1, h2]
    · left
      simp [h1, h2]

lemma updateContent_ops (dbOk : Bool) (st : AppState) (todoId : String)
    (newContent : List Char) (o : RemoteOutcome) :
    (updateContent dbOk st todoId newContent o).2 = [] ∨
    (jsTrim newContent ≠ [] ∧ (updateContent dbOk st todoId newContent o).2 =
      [.mergeSetContent todoId (jsTrim newContent)]) := by
  rw [updateContent.eq_def]
  by_cases h1 : jsTrim newContent = []
  · left
    simp [h1]
  · by_cases h2 : dbOk
    · right
      refine ⟨h1, ?_⟩
      cases o <;> simp [h1, h2]
    · left
      simp [h1, h2]

/-! ### Concrete states used by the witnesses -/

/-- A state whose input buffer is whitespace-only. -/
def stWs : AppState :=
  { name := "", todos := [], inputContent := [' ', ' '],
    inputCategory := .personal, userId := some "u1", syncStatus := "s" }

/-- A state whose input buffer trims to `"hi"`. -/
def stAdd : AppState :=
  { name := "", todos := [], inputContent := [' ', 'h', 'i'],
    inputCategory := .business, userId := some "u1", syncStatus := "s" }

/-- A concrete item. -/
def todoX : Todo :=
  { id := "d1", content := ['h'], category := .personal, done := false,
    createdAt := .nullv, createdBy := none }

/-- A concrete snapshot document. -/
def docA : DocSnap :=
  { id := "d1",
    data := { content := ['m'], category := .business, done := false,
              createdAt := .timestamp 5 0, createdBy := some "u1" } }

/-! ### Claim theorems about the CRUD intents and the subscription -/

/-- C4: the `onSnapshot` callback fully replaces the local collection with
the delivered snapshot; over any sequence of snapshot events only the last
one determines the final collection, and a final empty snapshot yields an
empty view. -/
theorem snapshot_fully_replaces :
    (∀ (st : AppState) (docs : List DocSnap) (ts : String),
      (onSnapshotCallback st docs ts).todos = docs.map snapshotTodo) ∧
    (∀ (st : AppState) (events : List (List DocSnap × String))
        (ev : List DocSnap × String), events.getLast? = some ev →
      (events.foldl (fun s e => onSnapshotCallback s e.1 e.2) st).todos =
        ev.1.map snapshotTodo) ∧
    (∀ (st : AppState) (ts : String),
      todosAsc (onSnapshotCallback st [] ts).todos = []) := by
  refine ⟨fun st docs ts => rfl, ?_, fun st ts => by simp [onSnapshotCallback, todosAsc]⟩
  intro st events
  induction events generalizing st with
  | nil =>
    intro ev h
    simp at h
  | cons e es ih =>
    intro ev h
    cases es with
    | nil =>
      simp at h
      subst h
      rfl
    | cons e2 es2 =>
      rw [List.foldl_cons]
      exact ih (onSnapshotCallback st e.1 e.2) ev (by simpa using h)

theorem snapshot_fully_replaces_witness :
    ([([docA], "t1"), ([], "t2")] : List (List DocSnap × String)).getLast? =
      some ([], "t2") ∧
    (([([docA], "t1"), ([], "t2")] : List (List DocSnap × String)).foldl
        (fun s e => onSnapshotCallback s e.1 e.2) stWs).todos =
      ([] : List DocSnap).map snapshotTodo :=
  ⟨rfl, snapshot_fully_replaces.2.1 stWs [([docA], "t1"), ([], "t2")]
    ([], "t2") rfl⟩

/-- C5: when the input buffer is empty or whitespace-only, `addTodo` issues
no remote call at all and leaves the state untouched — the validation
failure is handled purely locally. -/
theorem addTodo_whitespace_no_remote (dbOk : Bool) (st : AppState)
    (o : RemoteOutcome) (h : st.inputContent.all isJsWhitespace = true) :
    addTodo dbOk st o = (st, []) := by
  rw [addTodo]
  simp [jsTrim_of_all_whitespace h]

theorem addTodo_whitespace_no_remote_witness :
    ([' ', ' '] : List Char).all isJsWhitespace = true ∧
    addTodo true stWs .success = (stWs, []) :=
  ⟨by decide, addTodo_whitespace_no_remote true stWs .success (by decide)⟩

/-- C6: when the new content is empty or whitespace-only after trimming,
`updateContent` issues no remote call and leaves the state (hence every
item's content) untouched — a silent no-op. -/
theorem updateContent_whitespace_noop (dbOk : Bool) (st : AppState)
    (todoId : String) (newContent : List Char) (o : RemoteOutcome)
    (h : newContent.all isJsWhitespace = true) :
    updateContent dbOk st todoId newContent o = (st, []) := by
  rw [updateContent.eq_def]
  simp [jsTrim_of_all_whitespace h]

theorem updateContent_whitespace_noop_witness :
    ([' ', ' ', ' '] : List Char).all isJsWhitespace = true ∧
    updateContent true stAdd "d1" [' ', ' ', ' '] .success = (stAdd, []) :=
  ⟨by decide,
   updateContent_whitespace_noop true stAdd "d1" [' ', ' ', ' '] .success (by decide)⟩

/-- C7: for a non-whitespace input buffer, `addTodo` issues exactly one
create whose document carries the trimmed content, the selected category,
`done = false`, the pending server-assigned creation marker, and
`createdBy` equal to the current authenticated session id. -/
theorem addTodo_nonempty_single_create (st : AppState) (o : RemoteOutcome)
    (uid : String) (hu : st.userId = some uid)
    (h : jsTrim st.inputContent ≠ []) :
    (addTodo true st o).2 =
      [RemoteOp.createDoc
        { content := jsTrim st.inputContent
          category := st.inputCategory
          done := false
          createdAt := CreatedAt.fieldValue
          createdBy := some uid }] := by
  rw [addTodo]
  cases o <;> simp [h, hu]

theorem addTodo_nonempty_single_create_witness :
    stAdd.userId = some "u1" ∧ jsTrim stAdd.inputContent ≠ [] ∧
    (addTodo true stAdd .success).2 =
      [RemoteOp.createDoc
        { content := jsTrim stAdd.inputContent
          category := stAdd.inputCategory
          done := false
          createdAt := CreatedAt.fieldValue
          createdBy := some "u1" }] :=
  ⟨rfl, by decide,
   addTodo_nonempty_single_create stAdd .success "u1" rfl (by decide)⟩

/-- C8: when a remote write fails, the operation is abandoned (the same
single remote call was issued, nothing is retried), the status indicator is
set to an error string, and the rest of the local state is unchanged; the
input buffer is cleared only by a successful create and survives a failed
one. -/
theorem write_failure_semantics (st : AppState) (todoId : String)
    (todo : Todo) (newContent : List Char)
    (hadd : jsTrim st.inputContent ≠ []) (hc : jsTrim newContent ≠ []) :
    (addTodo true st .failure).1 =
      { st with syncStatus := "Failed to add todo. Check console." } ∧
    (addTodo true st .success).1 = { st with inputContent := [] } ∧
    (addTodo true st .failure).2 = (addTodo true st .success).2 ∧
    (addTodo true st .success).2.length = 1 ∧
    removeTodo true st todoId .failure =
      ({ st with syncStatus := "Failed to delete todo. Check console." },
       [RemoteOp.deleteDoc todoId]) ∧
    toggleDone true st todo .failure =
      ({ st with syncStatus := "Failed to update todo status. Check console." },
       [RemoteOp.mergeSetDone todo.id (!todo.done)]) ∧
    updateContent true st todoId newContent .failure =
      ({ st with syncStatus := "Failed to update todo content. Check console." },
       [RemoteOp.mergeSetContent todoId (jsTrim newContent)]) := by
  refine ⟨?_, ?_, ?_, ?_, ?_, ?_, ?_⟩ <;>
    simp [addTodo, removeTodo, toggleDone, updateContent, hadd, hc]

theorem write_failure_semantics_witness :
    jsTrim stAdd.inputContent ≠ [] ∧ jsTrim ['h'] ≠ [] ∧
    ((addTodo true stAdd .failure).1 =
      { stAdd with syncStatus := "Failed to add todo. Check console." } ∧
    (addTodo true stAdd .success).1 = { stAdd with inputContent := [] } ∧
    (addTodo true stAdd .failure).2 = (addTodo true stAdd .success).2 ∧
    (addTodo true stAdd .success).2.length = 1 ∧
    removeTodo true stAdd "d1" .failure =
      ({ stAdd with syncStatus := "Failed to delete todo. Check console." },
       [RemoteOp.deleteDoc "d1"]) ∧
    toggleDone true stAdd todoX .failure =
      ({ stAdd with syncStatus := "Failed to update todo status. Check console." },
       [RemoteOp.mergeSetDone todoX.id (!todoX.done)]) ∧
    updateContent true stAdd "d1" ['h'] .failure =
      ({ stAdd with syncStatus := "Failed to update todo content. Check console." },
       [RemoteOp.mergeSetContent "d1" (jsTrim ['h'])])) :=
  ⟨by decide, by decide,
   write_failure_semantics stAdd "d1" todoX ['h'] (by decide) (by decide)⟩

/-- C9: every remote call that sets an item's content — the create issued by
`addTodo` and the merge update issued by `updateContent` — writes a trimmed,
nonempty, not-whitespace-only string, and the other intents never write a
content field. -/
theorem content_writes_trimmed_nonempty :
    (∀ (dbOk : Bool) (st : AppState) (o : RemoteOutcome) (op : RemoteOp)
        (c : List Char),
      op ∈ (addTodo dbOk st o).2 → writeContent? op = some c →
      jsTrim c = c ∧ c ≠ [] ∧ c.all isJsWhitespace = false) ∧
    (∀ (dbOk : Bool) (st : AppState) (todoId : String) (nc : List Char)
        (o : RemoteOutcome) (op : RemoteOp) (c : List Char),
      op ∈ (updateContent dbOk st todoId nc o).2 → writeContent? op = some c →
      jsTrim c = c ∧ c ≠ [] ∧ c.all isJsWhitespace = false) ∧
    (∀ (dbOk : Bool) (st : AppState) (todoId : String) (o : RemoteOutcome)
        (op : RemoteOp), op ∈ (removeTodo dbOk st todoId o).2 →
      writeContent? op = none) ∧
    (∀ (dbOk : Bool) (st : AppState) (todo : Todo) (o : RemoteOutcome)
        (op : RemoteOp), op ∈ (toggleDone dbOk st todo o).2 →
      writeContent? op = none) := by
  refine ⟨?_, ?_, ?_, ?_⟩
  · intro dbOk st o op c hop hwc
    rcases addTodo_ops dbOk st o with hops | ⟨hne, hops⟩
    · rw [hops] at hop
      simp at hop
    · rw [hops] at hop
      rw [List.mem_singleton] at hop
      subst hop
      simp only [writeContent?, Option.some.injEq] at hwc
      subst hwc
      exact ⟨jsTrim_idem st.inputContent, hne, jsTrim_not_all_whitespace hne⟩
  · intro dbOk st todoId nc o op c hop hwc
    rcases updateContent_ops dbOk st todoId nc o with hops | ⟨hne, hops⟩
    · rw [hops] at hop
      simp at hop
    · rw [hops] at hop
      rw [List.mem_singleton] at hop
      subst hop
      simp only [writeContent?, Option.some.injEq] at hwc
      subst hwc
      exact ⟨jsTrim_idem nc, hne, jsTrim_not_all_whitespace hne⟩
  · intro dbOk st todoId o op hop
    rw [removeTodo.eq_def] at hop
    by_cases h2 : dbOk
    · cases o <;> simp [h2] at hop <;> subst hop <;> rfl
    · simp [h2] at hop
  · intro dbOk st todo o op hop
    rw [toggleDone.eq_def] at hop
    by_cases h2 : dbOk
    · cases o <;> simp [h2] at hop <;> subst hop <;> rfl
    · simp [h2] at hop

theorem content_writes_trimmed_nonempty_witness :
    RemoteOp.mergeSetContent "d1" ['h'] ∈
      (updateContent true stAdd "d1" ['h'] RemoteOutcome.success).2 ∧
    writeContent? (RemoteOp.mergeSetContent "d1" ['h']) = some ['h'] ∧
    (jsTrim ['h'] = ['h'] ∧ (['h'] : List Char) ≠ [] ∧
      (['h'] : List Char).all isJsWhitespace = false) :=
  ⟨by decide, rfl,
   content_writes_trimmed_nonempty.2.1 true stAdd "d1" ['h']
     RemoteOutcome.success (RemoteOp.mergeSetContent "d1" ['h']) ['h']
     (by decide) rfl⟩

end TodoApp
